import Mathlib

/-!
Verification of the fmus-ev-diagnostics protocol core against its
specification.  The C++ sources are shallowly embedded: machine integers
become `Nat` with explicit `% 2^w` at the points where the C++ performs a
narrowing conversion, byte vectors become `List Nat`, and the stateful
client objects become explicit state-passing functions.  Concurrency is
resolved by the sources' own synchronisation discipline: one exchange at a
time, with the frames delivered to the monitoring callback during the wait
modelled as an explicit list in arrival order.
-/

/- ===================================================================
   CAN layer — src/src/protocols/can.cpp
   =================================================================== -/

/-- Model of `fmus::protocols::CANMessage`: a CAN identifier (`uint32_t`),
a data payload, the 29-bit flag and the remote-transmission flag.  The
receive timestamp is dropped (no claim mentions it). -/
structure CANMessage where
  id : Nat
  data : List Nat
  extended : Bool := false
  rtr : Bool := false
deriving Repr, DecidableEq

/-- `CANMessage::isValid` (can.cpp:15-27): the id must fit the frame kind
(11-bit ≤ 0x7FF, 29-bit ≤ 0x1FFFFFFF) and the payload at most 8 bytes. -/
def CANMessage.isValid (m : CANMessage) : Bool :=
  if (if m.extended then m.id > 0x1FFFFFFF else m.id > 0x7FF) then false
  else if m.data.length > 8 then false
  else true

/-- The statistics counters of `CANProtocol` that `sendMessage` touches. -/
structure CANStatistics where
  messagesSent : Nat := 0
  messagesReceived : Nat := 0
  errorsDetected : Nat := 0
deriving Repr, DecidableEq

/-- `CANProtocol::sendMessage` (can.cpp:243-266): reject when the protocol
is not initialized or the message is invalid; otherwise count the send and
report success.  The J2534 hand-off is a stub in the source ("just
simulate success"), so forwarding is exactly the success return plus the
counter increment. -/
def CANProtocol.sendMessage (initialized : Bool) (stats : CANStatistics)
    (message : CANMessage) : Bool × CANStatistics :=
  if !initialized then (false, stats)
  else if !message.isValid then (false, stats)
  else (true, { stats with messagesSent := stats.messagesSent + 1 })

/- ===================================================================
   UDS layer — src/src/diagnostics/uds.cpp, include/fmus/diagnostics/uds.h
   =================================================================== -/

/-- Model of `fmus::diagnostics::UDSMessage` (uds.h:102-132).  `service`
is an `Option` because the C++ default constructor leaves the enum field
unassigned; `none` models that unassigned state.  NRC and service values
are kept as raw bytes.  The default NRC is `GENERAL_REJECT = 0x10`. -/
structure UDSMessage where
  service : Option Nat := none
  data : List Nat := []
  isResponse : Bool := false
  isNegativeResponse : Bool := false
  negativeResponseCode : Nat := 0x10
deriving Repr, DecidableEq

/-- The request constructor `UDSMessage(svc, payload)` (uds.h:111). -/
def UDSMessage.request (svc : Nat) (payload : List Nat) : UDSMessage :=
  { service := some svc, data := payload }

/-- `UDSMessage::toCANMessage` (uds.cpp:16-23): service byte followed by
the body, on the configured request id. -/
def UDSMessage.toCANMessage (m : UDSMessage) (requestId : Nat) : CANMessage :=
  { id := requestId, data := m.service.getD 0 :: m.data }

/-- `UDSMessage::fromCANMessage` (uds.cpp:25-63): first byte `0x7F` is a
negative response (service and NRC from bytes 1 and 2 when present); a
first byte in `[0x40, 0x7E]` is a positive response with service
`byte - 0x40`; anything else is decoded as a request. -/
def UDSMessage.fromCANMessage (canMsg : CANMessage) : UDSMessage :=
  match canMsg.data with
  | [] => {}
  | serviceId :: rest =>
    if serviceId = 0x7F then
      { isNegativeResponse := true
        service := if rest.length + 1 ≥ 3 then some (rest.getD 0 0) else none
        negativeResponseCode := if rest.length + 1 ≥ 3 then rest.getD 1 0 else 0x10
        data := if rest.length + 1 > 3 then rest.drop 2 else [] }
    else if 0x40 ≤ serviceId ∧ serviceId ≤ 0x7E then
      { isResponse := true, service := some (serviceId - 0x40), data := rest }
    else
      { service := some serviceId, data := rest }

/-- The `UDSConfig` fields `sendRequest` reads (uds.h:138-145). -/
structure UDSConfig where
  requestId : Nat := 0x7E0
  responseId : Nat := 0x7E8
  timeout : Nat := 1000
  p2ClientMax : Nat := 50
  p2StarClientMax : Nat := 5000
deriving Repr, DecidableEq

/-- `UDSClient::Statistics` counters touched by `Impl::updateStats`. -/
structure UDSStatistics where
  requestsSent : Nat := 0
  responsesReceived : Nat := 0
  negativeResponses : Nat := 0
  timeouts : Nat := 0
deriving Repr, DecidableEq

/-- `UDSClient::Impl::updateStats` (uds.cpp:132-145). -/
def UDSClient.updateStats (s : UDSStatistics) (isRequest isNegative isTimeout : Bool) :
    UDSStatistics :=
  let s1 :=
    if isRequest then { s with requestsSent := s.requestsSent + 1 }
    else
      let s' := { s with responsesReceived := s.responsesReceived + 1 }
      if isNegative then { s' with negativeResponses := s'.negativeResponses + 1 } else s'
  if isTimeout then { s1 with timeouts := s1.timeouts + 1 } else s1

/-- The client state `sendRequest` and the service wrappers read and
write: the configuration, the cached session (`UDSSession` byte;
`DEFAULT = 0x01`) and the statistics.  The client holds no cache of
security unlocks (no such member exists in `UDSClient::Impl`). -/
structure UDSClientState where
  initialized : Bool := false
  config : UDSConfig := {}
  currentSession : Nat := 0x01
  stats : UDSStatistics := {}
deriving Repr, DecidableEq

/-- `Impl::onCANMessage` (uds.cpp:160-171) stores every frame whose id
equals `config.responseId` and wakes the waiter; `sendRequest`'s wait
predicate is satisfied by the first such frame, so the exchange resolves
with the first frame on the response id — there is no inspection of the
payload (in particular no `7F <sid> 78` pending handling). -/
def UDSClient.firstResponseFrame (responseId : Nat) (frames : List CANMessage) :
    Option CANMessage :=
  frames.find? (fun f => f.id == responseId)

/-- `UDSClient::sendRequest` (uds.cpp:218-278).  `sendOk` is the result of
`CANProtocol::sendMessage` for the encoded request; `frames` are the CAN
frames delivered to the monitoring callback while the caller waits, in
arrival order; an empty match models the `wait_for` timeout.  Error-info
bookkeeping (`setLastError`) is omitted — no claim reads it. -/
def UDSClient.sendRequest (st : UDSClientState) (_request : UDSMessage)
    (sendOk : Bool) (frames : List CANMessage) : UDSMessage × UDSClientState :=
  if !st.initialized then
    ({ isNegativeResponse := true, negativeResponseCode := 0x22 }, st)
  else if !sendOk then
    ({ isNegativeResponse := true, negativeResponseCode := 0x10 }, st)
  else
    let st1 := { st with stats := UDSClient.updateStats st.stats true false false }
    match UDSClient.firstResponseFrame st.config.responseId frames with
    | none =>
      ({ isNegativeResponse := true, negativeResponseCode := 0x10 },
       { st1 with stats := UDSClient.updateStats st1.stats false false true })
    | some f =>
      let response := UDSMessage.fromCANMessage f
      (response,
       { st1 with stats := UDSClient.updateStats st1.stats false response.isNegativeResponse false })

/-- `UDSClient::resetECU` (uds.cpp:307-312): send service `0x11` with the
reset type and report whether the response was non-negative.  It performs
no update of `currentSession` and no invalidation of anything. -/
def UDSClient.resetECU (st : UDSClientState) (resetType : Nat)
    (sendOk : Bool) (frames : List CANMessage) : Bool × UDSClientState :=
  let r := UDSClient.sendRequest st (UDSMessage.request 0x11 [resetType]) sendOk frames
  (!r.1.isNegativeResponse, r.2)

/-- `UDSClient::startDiagnosticSession` (uds.cpp:290-300): on a
non-negative response the cached session becomes the requested one. -/
def UDSClient.startDiagnosticSession (st : UDSClientState) (session : Nat)
    (sendOk : Bool) (frames : List CANMessage) : Bool × UDSClientState :=
  let r := UDSClient.sendRequest st (UDSMessage.request 0x10 [session]) sendOk frames
  if !r.1.isNegativeResponse then (true, { r.2 with currentSession := session })
  else (false, r.2)

/- Concrete fixtures used by the counterexamples and witnesses. -/

/-- An initialized client with the default configuration and fresh
statistics, cached session Extended Diagnostic (0x03). -/
def extSessionClient : UDSClientState :=
  { initialized := true, currentSession := 0x03 }

/-- An initialized client cached in the Programming session (0x02). -/
def progSessionClient : UDSClientState :=
  { initialized := true, currentSession := 0x02 }

/- ===================================================================
   Theorems
   =================================================================== -/

/-- Claim C9: `CANProtocol::sendMessage` forwards a frame (returns true
and increments the sent counter) only if the payload is at most 8 bytes
and the identifier is within its kind's range (≤ 0x7FF for 11-bit,
≤ 0x1FFFFFFF for 29-bit); any frame violating these bounds is rejected
with `false` and the statistics are left untouched. -/
theorem C9_sendMessage_bounds (initialized : Bool) (stats : CANStatistics)
    (m : CANMessage) :
    ((CANProtocol.sendMessage initialized stats m).1 = true →
      m.data.length ≤ 8 ∧
      (if m.extended then m.id ≤ 0x1FFFFFFF else m.id ≤ 0x7FF) ∧
      (CANProtocol.sendMessage initialized stats m).2.messagesSent =
        stats.messagesSent + 1) ∧
    (¬ (m.data.length ≤ 8 ∧ (if m.extended then m.id ≤ 0x1FFFFFFF else m.id ≤ 0x7FF)) →
      CANProtocol.sendMessage initialized stats m = (false, stats)) := by
  unfold CANProtocol.sendMessage CANMessage.isValid
  by_cases hinit : initialized <;>
    by_cases hext : m.extended <;>
      simp [hinit, hext] <;>
        split_ifs <;> simp_all <;> omega

/-- Witness for C9 at a concrete out-of-bounds frame (9 payload bytes):
it is rejected and the statistics are unchanged. -/
theorem C9_witness :
    CANProtocol.sendMessage true {} ⟨0x123, List.replicate 9 0, false, false⟩ =
      (false, {}) :=
  (C9_sendMessage_bounds true {} ⟨0x123, List.replicate 9 0, false, false⟩).2
    (by decide)

/-- Helper: `sendRequest` only ever updates the statistics of the client
state — the session cache and everything else pass through unchanged. -/
theorem UDSClient.sendRequest_state_eq (st : UDSClientState) (req : UDSMessage)
    (sendOk : Bool) (frames : List CANMessage) :
    (UDSClient.sendRequest st req sendOk frames).2 =
      { st with stats := (UDSClient.sendRequest st req sendOk frames).2.stats } := by
  obtain ⟨i, c, cs, sst⟩ := st
  unfold UDSClient.sendRequest
  by_cases h1 : i <;> simp [h1]
  by_cases h2 : sendOk <;> simp [h2]
  cases hf : UDSClient.firstResponseFrame c.responseId frames <;> simp [hf]

/-- Claim C10: when the CAN send fails, and likewise when no response
frame arrives before the timeout, `UDSClient::sendRequest` returns a
fabricated negative-response message with NRC `GENERAL_REJECT` (0x10) —
exactly the observable shape of a decoded ECU-issued GeneralReject frame
`7F <sid> 10`, so the caller cannot tell the three apart. -/
theorem C10_failures_look_like_general_reject (st : UDSClientState)
    (req : UDSMessage) (frames : List CANMessage) (sid : Nat) :
    st.initialized = true →
    UDSClient.firstResponseFrame st.config.responseId frames = none →
    ((UDSClient.sendRequest st req false frames).1.isNegativeResponse = true ∧
     (UDSClient.sendRequest st req false frames).1.negativeResponseCode = 0x10) ∧
    ((UDSClient.sendRequest st req true frames).1.isNegativeResponse = true ∧
     (UDSClient.sendRequest st req true frames).1.negativeResponseCode = 0x10) ∧
    ((UDSMessage.fromCANMessage ⟨st.config.responseId, [0x7F, sid, 0x10], false, false⟩).isNegativeResponse = true ∧
     (UDSMessage.fromCANMessage ⟨st.config.responseId, [0x7F, sid, 0x10], false, false⟩).negativeResponseCode = 0x10) := by
  intro hinit hnone
  unfold UDSClient.sendRequest
  simp [hinit, hnone, UDSMessage.fromCANMessage]

/-- Witness for C10 at an initialized client with no delivered frames. -/
theorem C10_witness :
    ((UDSClient.sendRequest extSessionClient (UDSMessage.request 0x22 []) false []).1.isNegativeResponse = true ∧
     (UDSClient.sendRequest extSessionClient (UDSMessage.request 0x22 []) false []).1.negativeResponseCode = 0x10) ∧
    ((UDSClient.sendRequest extSessionClient (UDSMessage.request 0x22 []) true []).1.isNegativeResponse = true ∧
     (UDSClient.sendRequest extSessionClient (UDSMessage.request 0x22 []) true []).1.negativeResponseCode = 0x10) ∧
    ((UDSMessage.fromCANMessage ⟨extSessionClient.config.responseId, [0x7F, 0x22, 0x10], false, false⟩).isNegativeResponse = true ∧
     (UDSMessage.fromCANMessage ⟨extSessionClient.config.responseId, [0x7F, 0x22, 0x10], false, false⟩).negativeResponseCode = 0x10) :=
  C10_failures_look_like_general_reject extSessionClient
    (UDSMessage.request 0x22 []) [] 0x22 rfl rfl

/-- Counterexample to claim C6: a `resetECU` call that receives a positive
response (`0x51 0x01` on the response id) returns success, yet the cached
session stays Programming (0x02) instead of being set back to Default
(0x01) — `UDSClient::resetECU` never touches the session cache (and the
client caches no security unlocks at all). -/
theorem C6_counterexample :
    (UDSClient.resetECU progSessionClient 0x01 true
        [⟨0x7E8, [0x51, 0x01], false, false⟩]).1 = true ∧
    (UDSClient.resetECU progSessionClient 0x01 true
        [⟨0x7E8, [0x51, 0x01], false, false⟩]).2.currentSession = 0x02 ∧
    (0x02 : Nat) ≠ 0x01 := by decide

/-- Claim C6 as amended: `UDSClient::resetECU` reports success exactly on
a non-negative response, but leaves the cached session unchanged whatever
the outcome; there is no cached security-unlock state in the client to
invalidate. -/
theorem C6_resetECU_session_unchanged (st : UDSClientState) (resetType : Nat)
    (sendOk : Bool) (frames : List CANMessage) :
    (UDSClient.resetECU st resetType sendOk frames).2.currentSession =
      st.currentSession ∧
    (UDSClient.resetECU st resetType sendOk frames).1 =
      !(UDSClient.sendRequest st (UDSMessage.request 0x11 [resetType]) sendOk frames).1.isNegativeResponse := by
  constructor
  · show (UDSClient.sendRequest st (UDSMessage.request 0x11 [resetType]) sendOk frames).2.currentSession = _
    rw [UDSClient.sendRequest_state_eq]
  · rfl

/-- The frame sequence of the pending-response scenario: a `7F 22 78`
(response pending) frame followed by the final positive response
`62 F1 90 31`, both delivered on the default response id 0x7E8 well
before any deadline. -/
def pendingThenPositiveFrames : List CANMessage :=
  [⟨0x7E8, [0x7F, 0x22, 0x78], false, false⟩,
   ⟨0x7E8, [0x62, 0xF1, 0x90, 0x31], false, false⟩]

/-- Counterexample to claim C1: with a pending frame `7F 22 78` followed
by the final positive response, `UDSClient::sendRequest` resolves on the
pending frame and hands it to the caller as a negative response with NRC
0x78 — it does not wait for, let alone return, the final positive
response.  (One request is counted, as the claim also says.) -/
theorem C1_counterexample :
    (UDSClient.sendRequest extSessionClient (UDSMessage.request 0x22 [0xF1, 0x90])
        true pendingThenPositiveFrames).1.isNegativeResponse = true ∧
    (UDSClient.sendRequest extSessionClient (UDSMessage.request 0x22 [0xF1, 0x90])
        true pendingThenPositiveFrames).1.negativeResponseCode = 0x78 ∧
    (UDSClient.sendRequest extSessionClient (UDSMessage.request 0x22 [0xF1, 0x90])
        true pendingThenPositiveFrames).1.isResponse = false ∧
    (UDSClient.sendRequest extSessionClient (UDSMessage.request 0x22 [0xF1, 0x90])
        true pendingThenPositiveFrames).2.stats.requestsSent = 1 := by decide

/-- Claim C1 as amended: once the request is sent, `sendRequest` resolves
with the decode of the *first* frame delivered on the configured response
id — a `7F <sid> 78` pending frame is returned to the caller as an
ordinary negative response instead of being absorbed — and the request
counter records exactly one sent request. -/
theorem C1_first_frame_resolves (st : UDSClientState) (req : UDSMessage)
    (frames : List CANMessage) (f : CANMessage) :
    st.initialized = true →
    UDSClient.firstResponseFrame st.config.responseId frames = some f →
    (UDSClient.sendRequest st req true frames).1 = UDSMessage.fromCANMessage f ∧
    (UDSClient.sendRequest st req true frames).2.stats.requestsSent =
      st.stats.requestsSent + 1 := by
  intro hinit hf
  unfold UDSClient.sendRequest
  simp [hinit, hf, UDSClient.updateStats]
  split <;> rfl

/-- Witness for C1 (amended) at the pending-response scenario. -/
theorem C1_witness :
    (UDSClient.sendRequest extSessionClient (UDSMessage.request 0x22 [0xF1, 0x90])
        true pendingThenPositiveFrames).1 =
      UDSMessage.fromCANMessage ⟨0x7E8, [0x7F, 0x22, 0x78], false, false⟩ ∧
    (UDSClient.sendRequest extSessionClient (UDSMessage.request 0x22 [0xF1, 0x90])
        true pendingThenPositiveFrames).2.stats.requestsSent = 0 + 1 :=
  C1_first_frame_resolves extSessionClient (UDSMessage.request 0x22 [0xF1, 0x90])
    pendingThenPositiveFrames ⟨0x7E8, [0x7F, 0x22, 0x78], false, false⟩ rfl (by decide)

/-- Counterexample to claim C2: a `0x22` request answered by the frame
`50 01` (a positive-response form of service 0x10, not of 0x22) makes
`sendRequest` return a message that is not a negative response, yet whose
service identifier 0x10 differs from the request's 0x22 — the client
never checks the service echo. -/
theorem C2_counterexample :
    (UDSClient.sendRequest extSessionClient (UDSMessage.request 0x22 [])
        true [⟨0x7E8, [0x50, 0x01], false, false⟩]).1.isNegativeResponse = false ∧
    (UDSClient.sendRequest extSessionClient (UDSMessage.request 0x22 [])
        true [⟨0x7E8, [0x50, 0x01], false, false⟩]).1.service = some 0x10 ∧
    some (0x10 : Nat) ≠ some (0x22 : Nat) := by decide

/-- Claim C2 as amended: `sendRequest` resolves with the decode of the
first frame on the response id without checking the service echo, so a
non-negative return need not echo the request; but whenever that frame's
first byte is the request SID plus 0x40 (with SID ≤ 0x3E so the sum stays
in the positive-response range), the returned message is a non-negative
positive response whose service equals the request SID. -/
theorem C2_positive_form_echoes_sid (st : UDSClientState) (sid : Nat)
    (payload : List Nat) (frames : List CANMessage) (f : CANMessage)
    (rest : List Nat) :
    st.initialized = true →
    UDSClient.firstResponseFrame st.config.responseId frames = some f →
    f.data = (sid + 0x40) :: rest →
    sid ≤ 0x3E →
    (UDSClient.sendRequest st (UDSMessage.request sid payload) true frames).1.isNegativeResponse = false ∧
    (UDSClient.sendRequest st (UDSMessage.request sid payload) true frames).1.isResponse = true ∧
    (UDSClient.sendRequest st (UDSMessage.request sid payload) true frames).1.service = some sid := by
  intro hinit hf hdata hsid
  have h7f : sid + 0x40 ≠ 0x7F := by omega
  have hlo : 0x40 ≤ sid + 0x40 := by omega
  have hhi : sid + 0x40 ≤ 0x7E := by omega
  unfold UDSClient.sendRequest
  simp [hinit, hf, UDSMessage.fromCANMessage, hdata, h7f, hlo, hhi]

/-- Witness for C2 (amended): a `0x22` request answered by `62 F1 90 31`
returns a positive response with service 0x22. -/
theorem C2_witness :
    (UDSClient.sendRequest extSessionClient (UDSMessage.request 0x22 [0xF1, 0x90])
        true [⟨0x7E8, [0x62, 0xF1, 0x90, 0x31], false, false⟩]).1.isNegativeResponse = false ∧
    (UDSClient.sendRequest extSessionClient (UDSMessage.request 0x22 [0xF1, 0x90])
        true [⟨0x7E8, [0x62, 0xF1, 0x90, 0x31], false, false⟩]).1.isResponse = true ∧
    (UDSClient.sendRequest extSessionClient (UDSMessage.request 0x22 [0xF1, 0x90])
        true [⟨0x7E8, [0x62, 0xF1, 0x90, 0x31], false, false⟩]).1.service = some 0x22 :=
  C2_positive_form_echoes_sid extSessionClient 0x22 [0xF1, 0x90]
    [⟨0x7E8, [0x62, 0xF1, 0x90, 0x31], false, false⟩]
    ⟨0x7E8, [0x62, 0xF1, 0x90, 0x31], false, false⟩ [0xF1, 0x90, 0x31]
    rfl (by decide) rfl (by decide)

/- ===================================================================
   OBD-II DTC encoding — src/unnamed/part_007 (obdii.cpp), OBDDTC
   =================================================================== -/

/-- One decimal digit, as consumed by `std::stoul(_, nullptr, 10)`. -/
def decDigit? (c : Char) : Option Nat :=
  if '0' ≤ c ∧ c ≤ '9' then some (c.toNat - 48) else none

/-- The accumulating digit scan of `std::stoul` base 10: consume digits
from the front, stop at the first non-digit. -/
def decPrefixValGo (acc : Nat) : List Char → Nat
  | [] => acc
  | c :: cs =>
    match decDigit? c with
    | some d => decPrefixValGo (10 * acc + d) cs
    | none => acc

/-- `std::stoul(s, nullptr, 10)`: `none` models the `std::invalid_argument`
throw when no leading digit exists; otherwise the value of the longest
decimal-digit prefix.  (The C++ routine also accepts leading whitespace, a
sign and huge values; none of those occur in the five-character DTC
strings this parser receives, so the model covers digit-led input.) -/
def decPrefixVal (s : List Char) : Option Nat :=
  match s with
  | [] => none
  | c :: _ => if (decDigit? c).isSome then some (decPrefixValGo 0 s) else none

/-- Decimal rendering of a `Nat`, most significant digit first, written
with explicit fuel so that it is structural (and kernel-evaluable).  With
`fuel > n` it is the usual decimal representation. -/
def decRenderAux : Nat → Nat → List Char
  | 0, _ => []
  | fuel + 1, n =>
    if n < 10 then [Char.ofNat (48 + n)]
    else decRenderAux fuel (n / 10) ++ [Char.ofNat (48 + n % 10)]

/-- Decimal representation of `n` (the `ostringstream` rendering). -/
def decRender (n : Nat) : List Char := decRenderAux (n + 1) n

/-- `std::setw(4)` with `std::setfill('0')`: pad on the left with `'0'`
to at least four characters. -/
def padLeft4 (s : List Char) : List Char :=
  List.replicate (4 - s.length) '0' ++ s

/-- `OBDDTC::bytesToDTCString` (part_007:153-168): the top two bits pick
the category letter, and the *low 14 bits interpreted as a binary number*
are rendered in decimal, left-padded to four characters. -/
def OBDDTC.bytesToDTCString (dtcBytes : Nat) : List Char :=
  let number := dtcBytes &&& 0x3FFF
  let category : Char :=
    match (dtcBytes >>> 14) &&& 0x03 with
    | 0 => 'P'
    | 1 => 'C'
    | 2 => 'B'
    | 3 => 'U'
    | _ => '?'
  category :: padLeft4 (decRender number)

/-- `OBDDTC::dtcStringToBytes` (part_007:170-188): five characters, the
category letter mapped to two bits, and the remaining four characters
parsed with `std::stoul` *base 10* (any exception yields 0). -/
def OBDDTC.dtcStringToBytes (dtcString : List Char) : Nat :=
  if dtcString.length ≠ 5 then 0
  else
    match dtcString with
    | [] => 0
    | c :: rest =>
      let categoryBits : Option Nat :=
        match c with
        | 'P' => some 0
        | 'C' => some 1
        | 'B' => some 2
        | 'U' => some 3
        | _ => none
      match categoryBits with
      | none => 0
      | some bits =>
        match decPrefixVal rest with
        | none => 0
        | some number => (bits <<< 14) ||| (number &&& 0x3FFF)

/-- The claim's well-formedness pattern `[PCBU][0-9A-F]{4}`. -/
def matchesDTCPattern (s : List Char) : Bool :=
  match s with
  | [c0, c1, c2, c3, c4] =>
    (c0 == 'P' || c0 == 'C' || c0 == 'B' || c0 == 'U') &&
      [c1, c2, c3, c4].all (fun c => ('0' ≤ c && c ≤ '9') || ('A' ≤ c && c ≤ 'F'))
  | _ => false

/-- The category letter for a two-bit category value, as both conversion
routines fix it: 0 ↦ P, 1 ↦ C, 2 ↦ B, 3 ↦ U. -/
def categoryChar (b : Nat) : Char :=
  match b with
  | 0 => 'P'
  | 1 => 'C'
  | 2 => 'B'
  | _ => 'U'

/-- Every character of a list is a decimal digit. -/
def allDecDigits (s : List Char) : Bool :=
  s.all (fun c => (decDigit? c).isSome)

theorem decPrefixValGo_append (t : List Char) :
    ∀ (s : List Char) (acc : Nat), allDecDigits s = true →
      decPrefixValGo acc (s ++ t) = decPrefixValGo (decPrefixValGo acc s) t := by
  intro s
  induction s with
  | nil => intro acc _; rfl
  | cons c cs ih =>
    intro acc hall
    simp [allDecDigits, List.all_cons] at hall
    obtain ⟨hc, hcs⟩ := hall
    rcases hd : decDigit? c with _ | d
    · rw [hd] at hc; simp [Option.isSome] at hc
    · simp [decPrefixValGo, hd]
      exact ih (10 * acc + d) (by simpa [allDecDigits] using hcs)

theorem decDigit?_digitChar (d : Nat) (h : d < 10) :
    decDigit? (Char.ofNat (48 + d)) = some d := by
  interval_cases d <;> decide

theorem decRenderAux_all_digits :
    ∀ (fuel n : Nat), n < fuel → allDecDigits (decRenderAux fuel n) = true := by
  intro fuel
  induction fuel with
  | zero => intro n h; omega
  | succ fuel ih =>
    intro n h
    by_cases h10 : n < 10
    · simp [decRenderAux, h10, allDecDigits, decDigit?_digitChar n h10]
    · have hrec := ih (n / 10) (by omega)
      have hmod := decDigit?_digitChar (n % 10) (Nat.mod_lt _ (by omega))
      simp [decRenderAux, h10, allDecDigits, List.all_append] at hrec ⊢
      exact ⟨by simpa [allDecDigits] using hrec, by simp [hmod]⟩

theorem decRenderAux_ne_nil (fuel n : Nat) (h : n < fuel) :
    decRenderAux fuel n ≠ [] := by
  cases fuel with
  | zero => omega
  | succ fuel =>
    by_cases h10 : n < 10 <;> simp [decRenderAux, h10]

theorem decPrefixValGo_decRenderAux :
    ∀ (fuel n acc : Nat), n < fuel →
      decPrefixValGo acc (decRenderAux fuel n) =
        acc * 10 ^ (decRenderAux fuel n).length + n := by
  intro fuel
  induction fuel with
  | zero => intro n acc h; omega
  | succ fuel ih =>
    intro n acc h
    by_cases h10 : n < 10
    · have hd := decDigit?_digitChar n h10
      simp [decRenderAux, h10, decPrefixValGo, hd]
      ring
    · have hrec : n / 10 < fuel := by omega
      have hall := decRenderAux_all_digits fuel (n / 10) hrec
      have hd := decDigit?_digitChar (n % 10) (Nat.mod_lt _ (by omega))
      simp only [decRenderAux, h10, if_false]
      rw [decPrefixValGo_append _ _ acc hall, ih (n / 10) acc hrec]
      simp [decPrefixValGo, hd, List.length_append]
      ring_nf
      omega

theorem decPrefixValGo_zeros (k : Nat) :
    ∀ acc : Nat, decPrefixValGo acc (List.replicate k '0') = acc * 10 ^ k := by
  induction k with
  | zero => intro acc; simp [decPrefixValGo]
  | succ k ih =>
    intro acc
    have h0 : decDigit? '0' = some 0 := by decide
    simp [List.replicate_succ, decPrefixValGo, h0, ih]
    ring

theorem allDecDigits_replicate_zero (k : Nat) :
    allDecDigits (List.replicate k '0') = true := by
  simp [allDecDigits, List.all_eq_true]
  exact Or.inr (by decide)

theorem decRenderAux_length_le :
    ∀ (fuel n k : Nat), n < fuel → n < 10 ^ k → 0 < k →
      (decRenderAux fuel n).length ≤ k := by
  intro fuel
  induction fuel with
  | zero => intro n k h _ _; omega
  | succ fuel ih =>
    intro n k h hk hkpos
    by_cases h10 : n < 10
    · simp [decRenderAux, h10]
      omega
    · have hk2 : 2 ≤ k := by
        by_contra hc
        have hk1 : k = 1 := by omega
        rw [hk1] at hk
        simp at hk
        omega
      have hpow : 10 ^ (k - 1) * 10 = 10 ^ k := by
        rw [← pow_succ]
        congr 1
        omega
      have hdiv : n / 10 < 10 ^ (k - 1) := by
        rw [Nat.div_lt_iff_lt_mul (by norm_num)]
        omega
      have hlen := ih (n / 10) (k - 1) (by omega) hdiv (by omega)
      simp [decRenderAux, h10, List.length_append]
      omega

theorem padLeft4_decRender_length (n : Nat) (hn : n < 10000) :
    (padLeft4 (decRender n)).length = 4 := by
  have hlen : (decRender n).length ≤ 4 :=
    decRenderAux_length_le (n + 1) n 4 (Nat.lt_succ_self n) (by norm_num; omega) (by norm_num)
  simp [padLeft4, List.length_append, List.length_replicate]
  omega

theorem decPrefixVal_pad_decRender (n : Nat) (hn : n < 10000) :
    decPrefixVal (padLeft4 (decRender n)) = some n := by
  have hall : allDecDigits (decRender n) = true :=
    decRenderAux_all_digits (n + 1) n (Nat.lt_succ_self n)
  have hne : decRender n ≠ [] :=
    decRenderAux_ne_nil (n + 1) n (Nat.lt_succ_self n)
  have hallp : allDecDigits (padLeft4 (decRender n)) = true := by
    simp [padLeft4, allDecDigits, List.all_append]
    constructor
    · simpa [allDecDigits] using allDecDigits_replicate_zero (4 - (decRender n).length)
    · simpa [allDecDigits] using hall
  have hval : decPrefixValGo 0 (padLeft4 (decRender n)) = n := by
    rw [padLeft4,
      decPrefixValGo_append _ _ 0 (allDecDigits_replicate_zero _),
      decPrefixValGo_zeros]
    simpa using decPrefixValGo_decRenderAux (n + 1) n 0 (Nat.lt_succ_self n)
  cases hps : padLeft4 (decRender n) with
  | nil =>
    exfalso
    have := padLeft4_decRender_length n hn
    rw [hps] at this
    simp at this
  | cons c t =>
    rw [hps] at hallp hval
    simp [allDecDigits, List.all_cons] at hallp
    simp [decPrefixVal, hallp.1, hval]

theorem dtc_encode_val (b n : Nat) (hn : n < 16384) :
    (b <<< 14) ||| (n &&& 0x3FFF) = b * 16384 + n := by
  have hmask : n &&& 16383 = n := by
    have h := Nat.and_pow_two_sub_one_eq_mod n 14
    norm_num at h
    rw [h]
    exact Nat.mod_eq_of_lt hn
  have hsh : b <<< 14 = b * 16384 := by
    rw [Nat.shiftLeft_eq]
  have h14 : (2:ℕ) ^ 14 = 16384 := by norm_num
  have hor : 2 ^ 14 * b + n = 2 ^ 14 * b ||| n :=
    Nat.mul_add_lt_is_or (by omega) b
  calc (b <<< 14) ||| (n &&& 0x3FFF)
      = b * 16384 ||| n := by rw [hmask, hsh]
    _ = 2 ^ 14 * b ||| n := by ring_nf
    _ = 2 ^ 14 * b + n := hor.symm
    _ = b * 16384 + n := by ring

theorem dtc_decode_fields (b n : Nat) (hb : b < 4) (hn : n < 16384) :
    ((b * 16384 + n) >>> 14) &&& 3 = b ∧ (b * 16384 + n) &&& 16383 = n := by
  constructor
  · rw [Nat.shiftRight_eq_div_pow]
    have hdiv : (b * 16384 + n) / 2 ^ 14 = b := by
      norm_num
      omega
    rw [hdiv]
    have h3 : b &&& 3 = b % 4 := by
      have h := Nat.and_pow_two_sub_one_eq_mod b 2
      norm_num at h
      exact h
    rw [h3, Nat.mod_eq_of_lt hb]
  · have hm : (b * 16384 + n) &&& 16383 = (b * 16384 + n) % 16384 := by
      have h := Nat.and_pow_two_sub_one_eq_mod (b * 16384 + n) 14
      norm_num at h
      exact h
    rw [hm]
    omega

/-- Counterexample to claim C3: the well-formed DTC string `P000A`
(matching `[PCBU][0-9A-F]{4}`) does not survive the round trip — the
parser reads the digits in base 10, so the `A` is dropped and the string
comes back as `P0000`.  Moreover the encoding is plain binary, not BCD:
`P1234` encodes to 1234 = 0x4D2, not to 0x1234. -/
theorem C3_counterexample :
    matchesDTCPattern ("P000A".toList) = true ∧
    OBDDTC.bytesToDTCString (OBDDTC.dtcStringToBytes ("P000A".toList)) = "P0000".toList ∧
    "P0000".toList ≠ "P000A".toList ∧
    OBDDTC.dtcStringToBytes ("P1234".toList) = 1234 ∧
    (1234 : Nat) ≠ 0x1234 := by decide

/-- Claim C3 as amended: the round trip holds exactly for DTC strings
with four *decimal* digits, `[PCBU][0-9]{4}`: such a string encodes to
bits [15:14] holding the category (0:P, 1:C, 2:B, 3:U) and bits [13:0]
holding the four-digit number as a plain binary value (not BCD), and
decoding that 16-bit value restores the original string. -/
theorem C3_dtc_decimal_roundtrip (b n : Nat) (hb : b < 4) (hn : n < 10000) :
    OBDDTC.dtcStringToBytes (categoryChar b :: padLeft4 (decRender n)) = b * 16384 + n ∧
    OBDDTC.bytesToDTCString (b * 16384 + n) = categoryChar b :: padLeft4 (decRender n) := by
  have hlen := padLeft4_decRender_length n hn
  have hparse := decPrefixVal_pad_decRender n hn
  have henc := dtc_encode_val b n (by omega)
  have hdec := dtc_decode_fields b n hb (by omega)
  constructor
  · unfold OBDDTC.dtcStringToBytes
    rw [if_neg (by simp [hlen])]
    interval_cases b <;> simp [categoryChar, hparse] <;> simpa using henc
  · unfold OBDDTC.bytesToDTCString
    rw [show ((b * 16384 + n) >>> 14) &&& 0x03 = b from hdec.1,
        show (b * 16384 + n) &&& 0x3FFF = n from hdec.2]
    interval_cases b <;> rfl

/-- Witness for C3 (amended) at `P0171` (category 0, number 171). -/
theorem C3_witness :
    OBDDTC.dtcStringToBytes (categoryChar 0 :: padLeft4 (decRender 171)) = 0 * 16384 + 171 ∧
    OBDDTC.bytesToDTCString (0 * 16384 + 171) = categoryChar 0 :: padLeft4 (decRender 171) :=
  C3_dtc_decimal_roundtrip 0 171 (by decide) (by decide)

/- ===================================================================
   Flash layer — src/unnamed/part_008 (flash_manager.cpp)
   =================================================================== -/

/-- Model of `fmus::flashing::FlashBlock`: a `uint32_t` start address and
the data bytes.  The `checksum` member (filled from
`utils::calculateCRC32`, whose implementation is not among the sources)
and the `isVerified` flag are omitted: `validate`, `programFlash` and
every claim ignore them. -/
structure FlashBlock where
  address : Nat
  data : List Nat
deriving Repr, DecidableEq

/-- The end address `block.address + block.data.size() - 1` as
`FlashFile::validate` computes it: `uint32_t + size_t` promotes to 64-bit
`size_t`, the subtraction wraps there, and the assignment back to
`uint32_t` truncates modulo 2^32. -/
def blockEnd32 (b : FlashBlock) : Nat :=
  (b.address + b.data.length + (2 ^ 64 - 1)) % 2 ^ 64 % 2 ^ 32

/-- The pair test inside `FlashFile::validate` (part_008:758-768):
`(start1 <= end2) && (start2 <= end1)` on truncated end addresses. -/
def blocksOverlap (b1 b2 : FlashBlock) : Bool :=
  decide (b1.address ≤ blockEnd32 b2) && decide (b2.address ≤ blockEnd32 b1)

/-- The double loop of `FlashFile::validate`: every pair `i < j` must
fail the overlap test. -/
def validatePairs : List FlashBlock → Bool
  | [] => true
  | b :: rest => rest.all (fun b2 => !(blocksOverlap b b2)) && validatePairs rest

/-- `FlashFile::validate` (part_008:752-772): an empty block list is
invalid; otherwise no pair may overlap. -/
def FlashFile.validate (blocks : List FlashBlock) : Bool :=
  if blocks.isEmpty then false
  else validatePairs blocks

/-- Membership of an address in a block's half-open range
`[addr, addr + len)`, the claim's notion of the occupied range. -/
def inBlockRange (b : FlashBlock) (x : Nat) : Prop :=
  b.address ≤ x ∧ x < b.address + b.data.length

theorem blockEnd32_eq (b : FlashBlock) (hlen : 1 ≤ b.data.length)
    (hb : b.address + b.data.length ≤ 2 ^ 32) :
    blockEnd32 b = b.address + b.data.length - 1 := by
  have h64 : (2:ℕ) ^ 64 = 18446744073709551616 := by norm_num
  have h32 : (2:ℕ) ^ 32 = 4294967296 := by norm_num
  unfold blockEnd32
  have hsum : b.address + b.data.length + (2 ^ 64 - 1) =
      (b.address + b.data.length - 1) + 2 ^ 64 := by omega
  rw [hsum, Nat.add_mod_right, Nat.mod_eq_of_lt (by omega), Nat.mod_eq_of_lt (by omega)]

theorem not_overlap_disjoint (b1 b2 : FlashBlock)
    (h1 : b1.address + b1.data.length ≤ 2 ^ 32)
    (h2 : b2.address + b2.data.length ≤ 2 ^ 32)
    (hov : blocksOverlap b1 b2 = false) :
    ∀ x : Nat, ¬ (inBlockRange b1 x ∧ inBlockRange b2 x) := by
  rintro x ⟨⟨ha1, hb1⟩, ⟨ha2, hb2⟩⟩
  have hl1 : 1 ≤ b1.data.length := by omega
  have hl2 : 1 ≤ b2.data.length := by omega
  rw [blocksOverlap, blockEnd32_eq b1 hl1 h1, blockEnd32_eq b2 hl2 h2] at hov
  simp at hov
  omega

theorem validatePairs_disjoint :
    ∀ (blocks : List FlashBlock),
      (∀ b ∈ blocks, b.address + b.data.length ≤ 2 ^ 32) →
      validatePairs blocks = true →
      blocks.Pairwise (fun b1 b2 => ∀ x : Nat, ¬ (inBlockRange b1 x ∧ inBlockRange b2 x)) := by
  intro blocks
  induction blocks with
  | nil => intro _ _; exact List.Pairwise.nil
  | cons b rest ih =>
    intro hbound hval
    simp [validatePairs, List.all_eq_true] at hval
    refine List.Pairwise.cons ?_ (ih (fun b' hb' => hbound b' (List.mem_cons_of_mem b hb')) hval.2)
    intro b2 hb2
    exact not_overlap_disjoint b b2 (hbound b (List.mem_cons_self b rest))
      (hbound b2 (List.mem_cons_of_mem b hb2))
      (by simpa using hval.1 b2 hb2)

/-- Counterexample to claim C7: two overlapping blocks at the top of the
32-bit address space — `0xFFFFFFFF` with 2 bytes and `0xFFFFFFFF` with
1 byte share the address `0xFFFFFFFF` — pass `validate`, because the
computed end address `0xFFFFFFFF + 2 - 1` truncates to 0 in `uint32_t`
and defeats the `start2 <= end1` comparison.  (Such blocks are reachable:
an Intel HEX type-04 record with base 0xFFFF0000 followed by data records
at offset 0xFFFF produces blocks starting at 0xFFFFFFFF.) -/
theorem C7_counterexample :
    FlashFile.validate [⟨0xFFFFFFFF, [0xAA, 0xBB]⟩, ⟨0xFFFFFFFF, [0xCC]⟩] = true ∧
    inBlockRange ⟨0xFFFFFFFF, [0xAA, 0xBB]⟩ 0xFFFFFFFF ∧
    inBlockRange ⟨0xFFFFFFFF, [0xCC]⟩ 0xFFFFFFFF := by
  refine ⟨by decide, ?_, ?_⟩ <;> constructor <;> decide

/-- Claim C7 as amended: for blocks whose ranges stay inside the 32-bit
address space (`addr + len ≤ 2^32`, so the end address does not truncate)
`validate` returns true only if every pair of distinct blocks has
disjoint ranges `[addr, addr+len)`; and the claim's concrete example —
0x0100 length 16 against 0x0108 length 16 — is rejected. -/
theorem C7_validate_only_if_disjoint (blocks : List FlashBlock)
    (hbound : ∀ b ∈ blocks, b.address + b.data.length ≤ 2 ^ 32) :
    (FlashFile.validate blocks = true →
      blocks.Pairwise (fun b1 b2 => ∀ x : Nat, ¬ (inBlockRange b1 x ∧ inBlockRange b2 x))) ∧
    FlashFile.validate [⟨0x0100, List.replicate 16 0⟩, ⟨0x0108, List.replicate 16 0⟩] = false := by
  constructor
  · intro hval
    unfold FlashFile.validate at hval
    split at hval
    · exact absurd hval (by simp)
    · exact validatePairs_disjoint blocks hbound hval
  · decide

/-- Witness for C7 (amended) at two disjoint in-range blocks. -/
theorem C7_witness :
    List.Pairwise (fun b1 b2 => ∀ x : Nat, ¬ (inBlockRange b1 x ∧ inBlockRange b2 x))
      [⟨0x0100, [1, 2]⟩, ⟨0x0200, [3]⟩] ∧
    FlashFile.validate [⟨0x0100, List.replicate 16 0⟩, ⟨0x0108, List.replicate 16 0⟩] = false :=
  ⟨(C7_validate_only_if_disjoint [⟨0x0100, [1, 2]⟩, ⟨0x0200, [3]⟩]
      (by intro b hb; fin_cases hb <;> simp)).1 (by decide),
   (C7_validate_only_if_disjoint [] (by simp)).2⟩

/-- The statistics fields of `FlashStatistics` that `programFlash`
updates (part_008:996-1003 and 1096-1158). -/
structure FlashStatistics where
  blocksWritten : Nat := 0
  bytesWritten : Nat := 0
  blocksFailed : Nat := 0
  totalBlocks : Nat := 0
  totalBytes : Nat := 0
deriving Repr, DecidableEq

/-- The 0x36 transfer loop of `programFlash` for one block
(part_008:1134-1150), on its success path (every `transferData` call
returns a positive response; a negative response throws `FlashError` and
aborts instead).  Returns the `(sequence, chunk)` pairs passed to
`Impl::transferData` and the sequence counter afterwards.  `blockSequence`
is a `uint8_t`, so `blockSequence++` wraps modulo 256.  The loop strictly
consumes `remaining` (`chunkSize ≥ 1` whenever `blockSize ≥ 1`); the fuel
argument makes the recursion structural and is unreachable when called
with `fuel = remaining.length` and a positive block size. -/
def transferChunks (blockSize : Nat) : Nat → List Nat → Nat → List (Nat × List Nat) × Nat
  | 0, _, seq => ([], seq)
  | fuel + 1, remaining, seq =>
    if remaining.isEmpty then ([], seq)
    else
      let chunkSize := min blockSize remaining.length
      let chunk := remaining.take chunkSize
      let rest := remaining.drop chunkSize
      let r := transferChunks blockSize fuel rest ((seq + 1) % 256)
      ((seq, chunk) :: r.1, r.2)

/-- The per-block loop of `programFlash` (part_008:1118-1159), success
path: `request_download`, the chunked `transfer_data` calls, and
`request_transfer_exit` all succeed.  The sequence counter is initialised
once, before the loop over blocks, and never reset per block. -/
def programFlashBlocks (blockSize : Nat) : List FlashBlock → Nat → List (Nat × List Nat) × Nat
  | [], seq => ([], seq)
  | b :: rest, seq =>
    let r1 := transferChunks blockSize b.data.length b.data seq
    let r2 := programFlashBlocks blockSize rest r1.2
    (r1.1 ++ r2.1, r2.2)

/-- `FlashManager::programFlash` (part_008:1088-1191) on the success
path: the `transferData` call sequence (with `blockSequence` starting at
1) and the final statistics — `updateStats(0, chunkSize)` once per chunk,
`updateStats(1, 0)` once per block, `blocksFailed` never touched. -/
def FlashManager.programFlash (blockSize : Nat) (blocks : List FlashBlock) :
    List (Nat × List Nat) × FlashStatistics :=
  let calls := (programFlashBlocks blockSize blocks 1).1
  (calls,
   { blocksWritten := blocks.length
     bytesWritten := (calls.map (fun c => c.2.length)).sum
     blocksFailed := 0
     totalBlocks := blocks.length
     totalBytes := (blocks.map (fun b => b.data.length)).sum })

theorem transferChunks_seq_lt (blockSize : Nat) :
    ∀ (fuel : Nat) (remaining : List Nat) (seq : Nat), seq < 256 →
      ((transferChunks blockSize fuel remaining seq).1.map Prod.fst).all
          (fun s => s < 256) = true ∧
      (transferChunks blockSize fuel remaining seq).2 < 256 := by
  intro fuel
  induction fuel with
  | zero => intro remaining seq h; simpa [transferChunks] using h
  | succ fuel ih =>
    intro remaining seq h
    by_cases hr : remaining.isEmpty
    · simpa [transferChunks, hr] using h
    · have hrec := ih (remaining.drop (min blockSize remaining.length))
        ((seq + 1) % 256) (Nat.mod_lt _ (by omega))
      simp [transferChunks, hr]
      exact ⟨⟨by omega, by simpa using hrec.1⟩, hrec.2⟩

theorem programFlashBlocks_seq_lt (blockSize : Nat) :
    ∀ (blocks : List FlashBlock) (seq : Nat), seq < 256 →
      ((programFlashBlocks blockSize blocks seq).1.map Prod.fst).all
          (fun s => s < 256) = true ∧
      (programFlashBlocks blockSize blocks seq).2 < 256 := by
  intro blocks
  induction blocks with
  | nil => intro seq h; simpa [programFlashBlocks] using h
  | cons b rest ih =>
    intro seq h
    have h1 := transferChunks_seq_lt blockSize b.data.length b.data seq h
    have h2 := ih ((transferChunks blockSize b.data.length b.data seq).2) h1.2
    simp [programFlashBlocks, List.map_append, List.all_append]
    exact ⟨⟨by simpa using h1.1, by simpa using h2.1⟩, h2.2⟩

set_option maxRecDepth 100000 in
/-- Counterexample to claim C5: the sequence counter does not wrap within
`1..=0xFF` — it is a `uint8_t`, so after 0xFF it becomes 0x00.  A single
block of 256 bytes programmed with `block_size = 1` produces 256
`transferData` calls whose 256th sequence number is 0. -/
theorem C5_counterexample :
    ((FlashManager.programFlash 1 [⟨0, List.replicate 256 0xAA⟩]).1.map
        Prod.fst).contains 0 = true ∧
    ¬ (∀ s ∈ (FlashManager.programFlash 1 [⟨0, List.replicate 256 0xAA⟩]).1.map
        Prod.fst, 1 ≤ s ∧ s ≤ 0xFF) := by
  constructor
  · decide
  · decide

set_option maxRecDepth 100000 in
/-- Claim C5 as amended: each block is split into chunks of the
configured block size, sent via `transferData` with a sequence counter
that starts at 1 and increments modulo 256 (so it wraps to 0x00 after
0xFF, not to 1); for one 512-byte block with block size 256, exactly two
calls occur with sequences 1 and 2 and the final statistics read
blocksWritten = 1, bytesWritten = 512, blocksFailed = 0. -/
theorem C5_transfer_chunking :
    (FlashManager.programFlash 256 [⟨0x8000, List.replicate 512 0xAB⟩]).1 =
      [(1, List.replicate 256 0xAB), (2, List.replicate 256 0xAB)] ∧
    (FlashManager.programFlash 256 [⟨0x8000, List.replicate 512 0xAB⟩]).2 =
      { blocksWritten := 1, bytesWritten := 512, blocksFailed := 0,
        totalBlocks := 1, totalBytes := 512 } ∧
    (∀ (blockSize : Nat) (blocks : List FlashBlock),
      ((FlashManager.programFlash blockSize blocks).1.map Prod.fst).all
          (fun s => s < 256) = true) := by
  refine ⟨by decide, by decide, ?_⟩
  intro blockSize blocks
  exact (programFlashBlocks_seq_lt blockSize blocks 1 (by omega)).1

/- ===================================================================
   Intel HEX parser — src/unnamed/part_008, FlashFile::parseIntelHex
   =================================================================== -/

/-- `std::getline` splitting: lines are separated by a newline; a
trailing newline does not produce an extra empty line, and an empty input
yields no lines. -/
def splitLinesGo (acc : List Char) : List Char → List (List Char)
  | [] => [acc.reverse]
  | c :: cs =>
    if c = '\n' then acc.reverse :: (if cs.isEmpty then [] else splitLinesGo [] cs)
    else splitLinesGo (c :: acc) cs

/-- Split file content into the lines `std::getline` yields. -/
def splitLines (s : List Char) : List (List Char) :=
  if s.isEmpty then [] else splitLinesGo [] s

/-- One hexadecimal digit. -/
def hexDigitVal (c : Char) : Option Nat :=
  if '0' ≤ c ∧ c ≤ '9' then some (c.toNat - 48)
  else if 'a' ≤ c ∧ c ≤ 'f' then some (c.toNat - 87)
  else if 'A' ≤ c ∧ c ≤ 'F' then some (c.toNat - 55)
  else none

/-- The digit scan of `std::stoul` base 16. -/
def hexPrefixValGo (acc : Nat) : List Char → Nat
  | [] => acc
  | c :: cs =>
    match hexDigitVal c with
    | some d => hexPrefixValGo (16 * acc + d) cs
    | none => acc

/-- `std::stoul(s, nullptr, 16)`: `none` models the
`std::invalid_argument` throw when no leading hex digit exists, otherwise
the value of the longest hex-digit prefix.  (Leading whitespace, signs
and the `0x` prefix, which stoul would also accept, do not occur at the
fixed record offsets the parser reads.) -/
def hexPrefixVal (s : List Char) : Option Nat :=
  match s with
  | [] => none
  | c :: _ => if (hexDigitVal c).isSome then some (hexPrefixValGo 0 s) else none

/-- `std::string::substr(pos, len)`: throws `std::out_of_range` (modelled
as `none`) when `pos` exceeds the length, else up to `len` characters. -/
def substrChk (s : List Char) (pos len : Nat) : Option (List Char) :=
  if pos > s.length then none else some ((s.drop pos).take len)

/-- `std::stoul(line.substr(pos, len), nullptr, 16)` with both possible
exceptions collapsed to `none`. -/
def stoulHexSub (line : List Char) (pos len : Nat) : Option Nat :=
  match substrChk line pos len with
  | none => none
  | some sub => hexPrefixVal sub

/-- The data-byte loop of the type-00 branch: for `i` in
`0..byteCount-1`, read the byte at `line.substr(9 + i*2, 2)`
(`uint8_t` cast included); the first exception aborts the parse. -/
def readDataBytesAux (line : List Char) : Nat → Nat → Option (List Nat)
  | _, 0 => some []
  | i, count + 1 =>
    match stoulHexSub line (9 + i * 2) 2 with
    | none => none
    | some b =>
      match readDataBytesAux line (i + 1) count with
      | none => none
      | some bs => some (b % 256 :: bs)

/-- The record loop of `FlashFile::parseIntelHex` (part_008:786-865),
carried state: the type-04 base address, the current coalescing address,
the bytes coalesced so far and the blocks already pushed.  Notably the
routine never reads, let alone checks, the record's trailing checksum
byte. -/
def parseIntelHexGo : List (List Char) → Nat → Nat → List Nat → List FlashBlock →
    Bool × List FlashBlock
  | [], _, _, _, blocks => (!blocks.isEmpty, blocks)
  | line :: rest, baseAddress, currentAddress, currentData, blocks =>
    if line.head? ≠ some ':' then
      parseIntelHexGo rest baseAddress currentAddress currentData blocks
    else if line.length < 11 then (false, blocks)
    else
      match stoulHexSub line 1 2, stoulHexSub line 3 4, stoulHexSub line 7 2 with
      | some byteCountRaw, some addressRaw, some recordTypeRaw =>
        let byteCount := byteCountRaw % 256
        let address := addressRaw % 65536
        let recordType := recordTypeRaw % 256
        if recordType = 0x00 then
          let fullAddress := (baseAddress + address) % 2 ^ 32
          let next :=
            if currentData.isEmpty || fullAddress ≠ currentAddress + currentData.length then
              (fullAddress, ([] : List Nat),
               if !currentData.isEmpty then blocks ++ [⟨currentAddress, currentData⟩]
               else blocks)
            else (currentAddress, currentData, blocks)
          match readDataBytesAux line 0 byteCount with
          | none => (false, next.2.2)
          | some bs =>
            parseIntelHexGo rest baseAddress next.1 (next.2.1 ++ bs) next.2.2
        else if recordType = 0x01 then
          (true,
           if !currentData.isEmpty then blocks ++ [⟨currentAddress, currentData⟩]
           else blocks)
        else if recordType = 0x04 then
          if byteCount = 2 then
            match stoulHexSub line 9 4 with
            | none => (false, blocks)
            | some upper =>
              parseIntelHexGo rest ((upper % 65536) <<< 16 % 2 ^ 32)
                currentAddress currentData blocks
          else
            parseIntelHexGo rest baseAddress currentAddress currentData blocks
        else
          parseIntelHexGo rest baseAddress currentAddress currentData blocks
      | _, _, _ => (false, blocks)

/-- `FlashFile::parseIntelHex` on file content (the C++ constructs a
`std::string` byte-identically from the input vector, so the content is
taken as the character list directly), starting from a cleared block
list as `loadFromData` guarantees. -/
def FlashFile.parseIntelHex (content : List Char) : Bool × List FlashBlock :=
  parseIntelHexGo (splitLines content) 0 0 [] []

/-- The claim's checksum condition for the single data record of the
counterexample input: byte count 0x01, address 0x0000, type 0x00, data
byte 0x41, stored checksum byte `cs`; the record is well-formed per Intel
HEX only when the total is 0 mod 256. -/
def recordChecksumTotal (cs : Nat) : Nat :=
  (0x01 + 0x00 + 0x00 + 0x00 + 0x41 + cs) % 256

/-- The two hex characters (upper case) rendering a byte value. -/
def hexByteChars (b : Nat) : List Char :=
  [if b / 16 < 10 then Char.ofNat (48 + b / 16) else Char.ofNat (55 + b / 16),
   if b % 16 < 10 then Char.ofNat (48 + b % 16) else Char.ofNat (55 + b % 16)]

/-- A one-record Intel HEX input `:01000000 41 <cs>` followed by the EOF
record, with the stored checksum byte `cs` rendered in hex. -/
def hexInputWithChecksum (cs : Nat) : List Char :=
  ":010000004".toList ++ ['1'] ++ hexByteChars cs ++ ['\n'] ++ ":00000001FF".toList

/-- Counterexample to claim C4: the input whose single data record
carries the stored checksum byte 0x00 — wrong, since the record total is
0x42 ≠ 0 (mod 256) — is *accepted* by `parseIntelHex`, which returns true
and the record's data, because the parser never reads the checksum. -/
theorem C4_counterexample :
    recordChecksumTotal 0x00 ≠ 0 ∧
    FlashFile.parseIntelHex (hexInputWithChecksum 0x00) =
      (true, [⟨0x0000, [0x41]⟩]) := by decide

set_option maxRecDepth 1000000 in
/-- Claim C4 as amended: `parseIntelHex` performs no checksum validation
at all — the outcome is the same for every value of the stored checksum
byte, right or wrong: the record is accepted and its data kept. -/
theorem C4_checksum_ignored (cs : Nat) (hcs : cs < 256) :
    FlashFile.parseIntelHex (hexInputWithChecksum cs) =
      (true, [⟨0x0000, [0x41]⟩]) := by
  revert cs
  decide

/-- Witness for C4 (amended) at the correct checksum byte 0xBE
(0x01 + 0x41 + 0xBE = 0x100 ≡ 0 mod 256). -/
theorem C4_witness :
    FlashFile.parseIntelHex (hexInputWithChecksum 0xBE) =
      (true, [⟨0x0000, [0x41]⟩]) :=
  C4_checksum_ignored 0xBE (by decide)

/- ===================================================================
   OBD-II supported-PID discovery — src/unnamed/part_007
   =================================================================== -/

/-- `parseSupportedPIDs` (part_007:867-882): four response bytes as a
32-bit bit map, MSB first; a set bit at (byte, bit) marks PID
`baseRange + byte*8 + bit + 1` (a `uint8_t`, hence the mod 256). -/
def parseSupportedPIDs (data : List Nat) (baseRange : Nat) : List Nat :=
  if data.length ≠ 4 then []
  else
    (List.range 4).flatMap (fun byte =>
      (List.range 8).filterMap (fun bit =>
        if data.getD byte 0 &&& (1 <<< (7 - bit)) ≠ 0 then
          some ((baseRange + byte * 8 + bit + 1) % 256)
        else none))

/-- `OBDClient::getSupportedPIDs` (part_007:548-587).  `resp pid` is the
CAN frame data `Impl::sendOBDRequest` hands back for the mode-01 request
of that PID (`[]` models a failed send or a timeout).  The result is the
list of PID requests issued and the accumulated supported list: PID 0x00
is always requested; bucket 0x20 (base 32) only when PID 0x20 turned up
supported; bucket 0x40 (base 64) only when PID 0x40 is in the set
accumulated so far.  No further buckets exist in the source. -/
def OBDClient.getSupportedPIDs (resp : Nat → List Nat) : List Nat × List Nat :=
  let r0 := resp 0x00
  let supported0 :=
    if r0.length ≥ 6 && r0.getD 0 0 == 0x41 && r0.getD 1 0 == 0x00 then
      parseSupportedPIDs ((r0.drop 2).take 4) 0
    else []
  let step1 :=
    if supported0.contains 0x20 then
      let r := resp 0x20
      ([0x20],
       supported0 ++
         (if r.length ≥ 6 && r.getD 0 0 == 0x41 && r.getD 1 0 == 0x20 then
            parseSupportedPIDs ((r.drop 2).take 4) 32
          else []))
    else ([], supported0)
  let step2 :=
    if step1.2.contains 0x40 then
      let r := resp 0x40
      ([0x40],
       step1.2 ++
         (if r.length ≥ 6 && r.getD 0 0 == 0x41 && r.getD 1 0 == 0x40 then
            parseSupportedPIDs ((r.drop 2).take 4) 64
          else []))
    else ([], step1.2)
  (0x00 :: (step1.1 ++ step2.1), step2.2)

/-- An ECU that reports every PID bit set in every bucket it is asked
about: the response to a mode-01 request for `pid` is
`41 <pid> FF FF FF FF`. -/
def allBitsResponder : Nat → List Nat :=
  fun pid => [0x41, pid % 256, 0xFF, 0xFF, 0xFF, 0xFF]

/-- Counterexample to claim C8: against an ECU whose every bucket answers
`FF FF FF FF`, the accumulated set contains the chaining PID 0x60 of the
0x40 bucket, yet `getSupportedPIDs` never requests bucket 0x60 (nor
0x80/0xA0/0xC0): the source stops unconditionally after bucket 0x40, so
the result is exactly PIDs 1..96. -/
theorem C8_counterexample :
    (OBDClient.getSupportedPIDs allBitsResponder).2.contains 0x60 = true ∧
    (OBDClient.getSupportedPIDs allBitsResponder).1 = [0x00, 0x20, 0x40] ∧
    (OBDClient.getSupportedPIDs allBitsResponder).1.contains 0x60 = false ∧
    (OBDClient.getSupportedPIDs allBitsResponder).2 =
      (List.range 96).map (fun i => i + 1) := by decide

/-- Claim C8 as amended: `getSupportedPIDs` requests PID 0x00, chains to
bucket 0x20 when PID 0x20 is reported and then to bucket 0x40 when PID
0x40 is in the accumulated set — and stops there: for every responder the
requests issued are among {0x00, 0x20, 0x40}, an empty first chain stops
discovery immediately, and the MSB-first bit map semantics are as in
`parseSupportedPIDs` (bit i of the four bytes marks PID base+i+1). -/
theorem C8_bucket_chaining (resp : Nat → List Nat) :
    ((OBDClient.getSupportedPIDs resp).1.all
        (fun p => p == 0x00 || p == 0x20 || p == 0x40)) = true ∧
    (OBDClient.getSupportedPIDs (fun _ => [])).1 = [0x00] ∧
    parseSupportedPIDs [0x80, 0x00, 0x00, 0x01] 0 = [0x01, 0x20] ∧
    parseSupportedPIDs [0x10, 0x00, 0x00, 0x00] 32 = [0x24] := by
  refine ⟨?_, by decide, by decide, by decide⟩
  unfold OBDClient.getSupportedPIDs
  dsimp only
  split <;> split <;> (try split) <;> (try split) <;> simp
